import Mathlib

/-!
Shallow embedding of the normalization pipeline of `trader.py`.

Raw and canonical records are Python dictionaries mapping column names to
values; we embed them as association lists from `String` to `Val`, where
`Val` covers the Python values that actually occur in a record: strings,
`None` (produced by a failed delivery lookup), and lists of strings
(produced by `csv.DictReader`'s `restkey` for overflow columns).

Python exceptions that can escape the normalization code are embedded as
the error type `PyErr`; fallible steps return `Except PyErr`.  An
exception that is not caught aborts the processing of the whole batch, so
the batch-level functions return either the full output list or the first
uncaught error.
-/

/-- Kinds of Python exceptions raised by the normalization code:
`ValueError` (e.g. `float` on a non-numeric string), `TypeError`
(e.g. `None + str`, or the date parser on unparseable input),
`KeyError` (missing dictionary key), `AttributeError` (e.g. `None.strip()`),
`IndexError` (list index out of range). -/
inductive PyErr where
  | valueError
  | typeError
  | keyError
  | attributeError
  | indexError
deriving DecidableEq, Repr

/-- A Python value stored in a record: a string, `None`, or a list of
strings (the `restkey` overflow of `csv.DictReader`). -/
inductive Val where
  | str : String → Val
  | pynone : Val
  | strlist : List String → Val
deriving DecidableEq, Repr

deriving instance DecidableEq for Except

/-- A record: a Python dict with string keys, kept in insertion order. -/
abbrev Rec := List (String × Val)

/-- Dictionary read `d.get(k)`: the value at `k`, if present. -/
def getOpt : Rec → String → Option Val
  | [], _ => none
  | (k', v) :: rest, k => if k' = k then some v else getOpt rest k

/-- Dictionary read `d[k]`: raises `KeyError` when the key is absent. -/
def getE (r : Rec) (k : String) : Except PyErr Val :=
  match getOpt r k with
  | some v => .ok v
  | none => .error .keyError

/-- Membership test `k in d`. -/
def hasKey (r : Rec) (k : String) : Bool :=
  (getOpt r k).isSome

/-- Dictionary write `d[k] = v`: replaces the value in place, preserving
insertion order, or appends a new key at the end. -/
def recSet : Rec → String → Val → Rec
  | [], k, v => [(k, v)]
  | (k', v') :: rest, k, v =>
    if k' = k then (k', v) :: rest else (k', v') :: recSet rest k v

/-- `d.pop(k, None)`: removes the key if present. -/
def popKey (r : Rec) (k : String) : Rec :=
  r.filter (fun e => e.1 ≠ k)

/-! ### Value-level helpers: numbers, strings, dates -/

/-- Digit-string to number. -/
def digitsVal (cs : List Char) : Nat :=
  cs.foldl (fun a c => 10 * a + (c.toNat - 48)) 0

/-- All characters are decimal digits. -/
def allDigits (cs : List Char) : Bool :=
  cs.all (fun c => c.isDigit)

/-- Python `s.strip()` on a character list: drop leading and trailing
whitespace. -/
def trimChars (cs : List Char) : List Char :=
  ((cs.dropWhile Char.isWhitespace).reverse.dropWhile Char.isWhitespace).reverse

/-- Python `s.strip()`. -/
def strTrim (s : String) : String :=
  ⟨trimChars s.data⟩

/-- A decimal number `man / 10 ^ scale`, the exact value denoted by a
decimal numeral.  The numbers flowing through this pipeline are decimal
numerals re-rendered with fixed precision, so we model Python's binary
floats by exact decimals; the two agree on this data. -/
structure Dec where
  man : Int
  scale : Nat
deriving DecidableEq, Repr

/-- Core of Python `float(s)` after whitespace stripping: an optional
sign, then digits with at most one decimal point and at least one digit
in total.  (The exponent, `inf` and `nan` forms accepted by Python never
occur in this data and are omitted.) -/
def parseFloatCore (cs : List Char) : Option Dec :=
  let signed : Bool × List Char :=
    match cs with
    | '+' :: rest => (false, rest)
    | '-' :: rest => (true, rest)
    | rest => (false, rest)
  let neg := signed.1
  let body := signed.2
  let ip := body.takeWhile (fun c => c.isDigit)
  let rest := body.dropWhile (fun c => c.isDigit)
  let mag : Option Dec :=
    match rest with
    | [] => if ip.isEmpty then none else some ⟨(digitsVal ip : Nat), 0⟩
    | '.' :: fp =>
      if allDigits fp && (!ip.isEmpty || !fp.isEmpty) then
        some ⟨(digitsVal ip * 10 ^ fp.length + digitsVal fp : Nat), fp.length⟩
      else none
    | _ => none
  mag.map (fun d => if neg then ⟨-d.man, d.scale⟩ else d)

/-- Python `float(s)`: leading/trailing whitespace is ignored. -/
def parseFloat (s : String) : Option Dec :=
  parseFloatCore (trimChars s.data)

/-- Multiplication by an integer (`float(...) * 100`). -/
def decMul (x : Dec) (k : Int) : Dec :=
  ⟨x.man * k, x.scale⟩

/-- Round `n / d` (with `d > 0`) to the nearest integer, ties to even —
the rounding used by Python's `"{:.xf}"` format. -/
def roundHalfEvenDiv (n d : Int) : Int :=
  let f : Int := Int.fdiv n d
  let rem : Int := n - f * d
  if 2 * rem < d then f
  else if d < 2 * rem then f + 1
  else if f % 2 = 0 then f else f + 1

/-- Zero-pad a number below 100 to two digits. -/
def natPad2 (n : Nat) : String :=
  if n < 10 then "0" ++ toString n else toString n

/-- Python `"{0:.2f}".format(x)`: exactly two fractional digits. -/
def formatF2 (x : Dec) : String :=
  let m : Int := roundHalfEvenDiv (x.man * 100) ((10 ^ x.scale : Nat) : Int)
  let sign := if m < 0 then "-" else ""
  let a : Nat := m.natAbs
  sign ++ toString (a / 100) ++ "." ++ natPad2 (a % 100)

/-- Python `"{0:.0f}".format(x)`: round to the nearest integer. -/
def formatF0 (x : Dec) : String :=
  let m : Int := roundHalfEvenDiv x.man ((10 ^ x.scale : Nat) : Int)
  (if m < 0 then "-" else "") ++ toString m.natAbs

/-- Python `s.upper().replace(" ", "")` as used on index symbols. -/
def upperNoSpaces (s : String) : String :=
  ⟨(s.data.map Char.toUpper).filter (fun c => c ≠ ' ')⟩

/-- Month names accepted in `DD-MMM-YYYY` dates (abbreviated or full,
any case). -/
def monthNum (s : String) : Option Nat :=
  match String.mk (s.data.map Char.toUpper) with
  | "JAN" => some 1 | "JANUARY" => some 1
  | "FEB" => some 2 | "FEBRUARY" => some 2
  | "MAR" => some 3 | "MARCH" => some 3
  | "APR" => some 4 | "APRIL" => some 4
  | "MAY" => some 5
  | "JUN" => some 6 | "JUNE" => some 6
  | "JUL" => some 7 | "JULY" => some 7
  | "AUG" => some 8 | "AUGUST" => some 8
  | "SEP" => some 9 | "SEPTEMBER" => some 9
  | "OCT" => some 10 | "OCTOBER" => some 10
  | "NOV" => some 11 | "NOVEMBER" => some 11
  | "DEC" => some 12 | "DECEMBER" => some 12
  | _ => none

def isLeap (y : Nat) : Bool :=
  (y % 4 = 0 && y % 100 ≠ 0) || y % 400 = 0

def daysInMonth (y m : Nat) : Nat :=
  if m = 2 then (if isLeap y then 29 else 28)
  else if m = 4 || m = 6 || m = 9 || m = 11 then 30
  else 31

/-- Split a character list on a separator character (Python
`s.split('-')` semantics: `""` splits to `[""]`, separators at the ends
produce empty pieces). -/
def splitOnChar (sep : Char) : List Char → List (List Char)
  | [] => [[]]
  | c :: rest =>
    let r := splitOnChar sep rest
    if c = sep then [] :: r
    else
      match r with
      | [] => [[c]]
      | h :: t => (c :: h) :: t

/-- Day-first date parsing for the two source formats this program
feeds to `dateutil.parser.parse(date_str, dayfirst=True)`:
`DD-MM-YYYY` (indices bhavcopy) and `DD-MMM-YYYY` (all other files).
Returns `(year, month, day)`. -/
def parseDateStr (s : String) : Option (Nat × Nat × Nat) :=
  match splitOnChar '-' (trimChars s.data) with
  | [a, b, c] =>
    if allDigits a && !a.isEmpty && allDigits c && c.length = 4 then
      let d := digitsVal a
      let y := digitsVal c
      let m? : Option Nat :=
        if allDigits b && !b.isEmpty then some (digitsVal b)
        else monthNum (String.mk b)
      match m? with
      | some m =>
        if 1 ≤ m && m ≤ 12 && 1 ≤ d && d ≤ daysInMonth y m then
          some (y, m, d)
        else none
      | none => none
    else none
  | _ => none

def natPad4 (n : Nat) : String :=
  if n < 10 then "000" ++ toString n
  else if n < 100 then "00" ++ toString n
  else if n < 1000 then "0" ++ toString n
  else toString n

/-- `date.isoformat()`: `YYYY-MM-DD`. -/
def isoDate (y m d : Nat) : String :=
  natPad4 y ++ "-" ++ natPad2 m ++ "-" ++ natPad2 d

/-- `parse(v, dayfirst=True).date().isoformat()` where `v` is the value
of `record.get('Date')`.  `parse(None)` raises `TypeError`; the dateutil
release this program was written against (2013–2014) also raised
`TypeError` on unparseable strings — the source's own comments state that
the header line raises `TypeError` at this call, and the indices
normalizer catches exactly that. -/
def pyDateParse (v : Option Val) : Except PyErr String :=
  match v with
  | some (Val.str s) =>
    match parseDateStr s with
    | some (y, m, d) => .ok (isoDate y m d)
    | none => .error .typeError
  | _ => .error .typeError

/-! ### `_read_input_as_list`: the raw record reader -/

/-- One row of `csv.DictReader(file, fieldnames=fns, restkey='Skip',
restval='Skip')`: fields are zipped with the expected fieldnames in
order; fieldnames beyond the row's length are filled with the sentinel
string `"Skip"`; columns beyond the fieldnames are collected as a list
under the sentinel key `"Skip"`. -/
def readRow (fns : List String) (row : List String) : Rec :=
  ((List.zip fns row).map (fun p => (p.1, Val.str p.2)))
  ++ ((fns.drop row.length).map (fun k => (k, Val.str "Skip")))
  ++ (if fns.length < row.length then
        [("Skip", Val.strlist (row.drop fns.length))]
      else [])

/-- `_read_input_as_list`, applied to the already-split rows of the
file; `csv.DictReader` skips completely empty rows. -/
def read_input_as_list (fns : List String) (rows : List (List String)) :
    List Rec :=
  (rows.filter (fun r => !r.isEmpty)).map (readRow fns)

/-! ### Field sanitizers -/

/-- The value transform of `_convert_dash_to_zero`. -/
def dashToZeroVal (v : Val) : Val :=
  if v = Val.str "-" then Val.str "0" else v

/-- The value transform of `_convert_blank_to_zero`. -/
def blankToZeroVal (v : Val) : Val :=
  if v = Val.str "" then Val.str "0" else v

/-- `_convert_dash_to_zero`: every value equal to `"-"` becomes `"0"`. -/
def convert_dash_to_zero (r : Rec) : Rec :=
  r.map (fun e => (e.1, dashToZeroVal e.2))

/-- `_convert_blank_to_zero`: every value equal to `""` becomes `"0"`. -/
def convert_blank_to_zero (r : Rec) : Rec :=
  r.map (fun e => (e.1, blankToZeroVal e.2))

/-- `_sanitize_ohlc`: when `Close != '0'` and `Open == High == Low == '0'`,
set `Open = High = Low = Close`.  Reads raise `KeyError` when a key is
absent; `all(...)` short-circuits, so `High`/`Low` are read only while
the previous keys compared equal to `'0'`. -/
def sanitize_ohlc (r : Rec) : Except PyErr Rec :=
  match getE r "Close" with
  | .error e => .error e
  | .ok c =>
    if c = Val.str "0" then .ok r
    else
      match getE r "Open" with
      | .error e => .error e
      | .ok o =>
        if o = Val.str "0" then
          match getE r "High" with
          | .error e => .error e
          | .ok h =>
            if h = Val.str "0" then
              match getE r "Low" with
              | .error e => .error e
              | .ok l =>
                if l = Val.str "0" then
                  .ok (recSet (recSet (recSet r "Open" c) "High" c) "Low" c)
                else .ok r
            else .ok r
        else .ok r

/-! ### `_pop_unnecessary_keys`, `_format_output_data`, `_finalize_output` -/

def unnecessaryKeys : List String :=
  ["Change", "Change_pct", "Turnover", "PE", "PB", "ISIN",
   "Div_yield", "Prev_Close", "Skip", "Series", "LTP",
   "Total_Trades", "Instrument", "Expiry_Date",
   "Strike_Price", "Option_Type", "Settlement_Price",
   "Contracts", "Turnover_lakh", "OI_Change"]

/-- Membership in a string list, by direct recursion. -/
def strMem (k : String) : List String → Bool
  | [] => false
  | x :: rest => if x = k then true else strMem k rest

def popUnnecessary (r : Rec) : Rec :=
  r.filter (fun e => !(strMem e.1 unnecessaryKeys))

/-- `_pop_unnecessary_keys`: drop bookkeeping keys from every record. -/
def pop_unnecessary_keys (data : List Rec) : List Rec :=
  data.map popUnnecessary

def stripKeysList : List String :=
  ["Symbol", "Open", "High", "Low", "Close", "Volume", "OI"]

def formatFloatsList : List String :=
  ["Open", "High", "Low", "Close"]

/-- One step of the strip loop: `element[key] = element[key].strip()`.
`KeyError` when the key is missing; `AttributeError` when the value is
not a string (e.g. `None.strip()`). -/
def stripOne (r : Rec) (k : String) : Except PyErr Rec :=
  match getE r k with
  | .error e => .error e
  | .ok (Val.str s) => .ok (recSet r k (Val.str (strTrim s)))
  | .ok _ => .error .attributeError

/-- One step of the float loop:
`element[key] = "{0:.2f}".format(float(element[key]))`.
`ValueError` when the string is not a number; `TypeError` when the value
is not a string. -/
def floatOne (r : Rec) (k : String) : Except PyErr Rec :=
  match getE r k with
  | .error e => .error e
  | .ok (Val.str s) =>
    match parseFloat s with
    | some q => .ok (recSet r k (Val.str (formatF2 q)))
    | none => .error .valueError
  | .ok _ => .error .typeError

def stripAll : Rec → List String → Except PyErr Rec
  | r, [] => .ok r
  | r, k :: ks =>
    match stripOne r k with
    | .error e => .error e
    | .ok r1 => stripAll r1 ks

def floatAll : Rec → List String → Except PyErr Rec
  | r, [] => .ok r
  | r, k :: ks =>
    match floatOne r k with
    | .error e => .error e
    | .ok r1 => floatAll r1 ks

/-- The body of `_format_output_data` for one record: first the strip
loop over `Symbol, Open, High, Low, Close, Volume, OI`, then the float
re-formatting loop over `Open, High, Low, Close`. -/
def formatRecord (r : Rec) : Except PyErr Rec :=
  match stripAll r stripKeysList with
  | .error e => .error e
  | .ok r1 => floatAll r1 formatFloatsList

/-- `_format_output_data`: formats every record in order; an exception
raised for any record propagates and aborts the whole call. -/
def format_output_data : List Rec → Except PyErr (List Rec)
  | [] => .ok []
  | r :: rest =>
    match formatRecord r with
    | .error e => .error e
    | .ok r1 =>
      match format_output_data rest with
      | .error e => .error e
      | .ok rest1 => .ok (r1 :: rest1)

/-- `_finalize_output`: a no-op on an empty batch, otherwise pop the
unnecessary keys and format every record. -/
def finalize_output (data : List Rec) : Except PyErr (List Rec) :=
  if data.length < 1 then .ok data
  else format_output_data (pop_unnecessary_keys data)

/-! ### `_manipulate_nse_indices` -/

/-- The symbol/volume part of the indices loop body: set `OI = '0'`
first; when a `Symbol` key exists, upper-case it and strip internal
spaces, then try to overwrite `Volume` with `Turnover * 100` rounded to
an integer, where only a `ValueError` from `float` is caught (raised by
the header line); when no `Symbol` key exists the record is the
volatility-index row, assigned `Symbol = 'INDIAVIX'`, `Volume = '0'`. -/
def indicesSymbolPart (r0 : Rec) : Except PyErr Rec :=
  if hasKey r0 "Symbol" then
    match getE r0 "Symbol" with
    | .error e => .error e
    | .ok (Val.str s) =>
      let r1 := recSet r0 "Symbol" (Val.str (upperNoSpaces s))
      match getE r1 "Turnover" with
      | .error e => .error e
      | .ok (Val.str t) =>
        match parseFloat t with
        | some q => .ok (recSet r1 "Volume" (Val.str (formatF0 (decMul q 100))))
        | none => .ok r1
      | .ok _ => .error .typeError
    | .ok _ => .error .attributeError
  else
    .ok (recSet (recSet r0 "Symbol" (Val.str "INDIAVIX"))
          "Volume" (Val.str "0"))

/-- One iteration of the `_manipulate_nse_indices` loop: returns
`some record` when the record is appended, `none` when the `continue`
branch (a `TypeError` from the date parse) skips it. -/
def indicesStep (foo : Rec) : Except PyErr (Option Rec) :=
  match indicesSymbolPart (recSet foo "OI" (Val.str "0")) with
  | .error e => .error e
  | .ok record =>
    match pyDateParse (getOpt record "Date") with
    | .error .typeError => .ok none
    | .error e => .error e
    | .ok iso =>
      let r2 := recSet record "Date" (Val.str iso)
      match sanitize_ohlc (convert_blank_to_zero (convert_dash_to_zero r2)) with
      | .error e => .error e
      | .ok r3 => .ok (some r3)

/-- `_manipulate_nse_indices`: appends each processed record to
`output_data`; a skipped record leaves the output unchanged; an uncaught
exception aborts the whole call. -/
def manipulate_nse_indices : List Rec → List Rec → Except PyErr (List Rec)
  | [], out => .ok out
  | foo :: rest, out =>
    match indicesStep foo with
    | .error e => .error e
    | .ok none => manipulate_nse_indices rest out
    | .ok (some r) => manipulate_nse_indices rest (out ++ [r])

/-! ### `_manipulate_nse_equities` -/

/-- The per-invocation delivery index: association pairs from
`(Symbol, Series)` to `x.get('OI')`, in file order. -/
abbrev DelvMap := List ((Val × Val) × Option Val)

/-- The dict comprehension
`{(x['Symbol'], x['Series']): x.get('OI') for x in input_delv}`:
reading a key missing from a delivery record raises `KeyError`; a
duplicate `(Symbol, Series)` pair keeps the last value. -/
def buildDelvOi : List Rec → Except PyErr DelvMap
  | [] => .ok []
  | x :: rest =>
    match getE x "Symbol" with
    | .error e => .error e
    | .ok s =>
      match getE x "Series" with
      | .error e => .error e
      | .ok se =>
        match buildDelvOi rest with
        | .error e => .error e
        | .ok m => .ok (((s, se), getOpt x "OI") :: m)

/-- `delv_oi.get(k)`: Python dict lookup where for duplicate insertions
the last one wins. -/
def delvGet : DelvMap → (Val × Val) → Option (Option Val)
  | [], _ => none
  | (k', v) :: rest, k =>
    match delvGet rest k with
    | some res => some res
    | none => if k' = k then some v else none

/-- `delv_oi.get(key)` returns `None` both when the key is absent and
when the stored `x.get('OI')` was `None`; either way the record's `OI`
field receives Python `None`. -/
def flattenOi : Option (Option Val) → Val
  | some (some v) => v
  | _ => Val.pynone

/-- The shared tail of the equities loop body: reparse the date (no
exception handling here — any failure propagates) and apply the OHLC
zero-fill, then emit. -/
def eqFinish (record : Rec) : Except PyErr (Option Rec) :=
  match pyDateParse (getOpt record "Date") with
  | .error e => .error e
  | .ok iso =>
    match sanitize_ohlc (recSet record "Date" (Val.str iso)) with
    | .error e => .error e
    | .ok r2 => .ok (some r2)

/-- One iteration of the `_manipulate_nse_equities` loop.  `delvIsNone`
is the `input_delv is None` test; `delvOi` is the `delv_oi` variable,
which is `None` unless `input_delv` was truthy (so with an empty
delivery list the `EQ` branch calls `.get` on `None`, an
`AttributeError`). -/
def eqStep (delvIsNone : Bool) (delvOi : Option DelvMap) (foo : Rec) :
    Except PyErr (Option Rec) :=
  match getE foo "Series" with
  | .error e => .error e
  | .ok se =>
    if se = Val.str "BE" then
      match getE foo "Volume" with
      | .error e => .error e
      | .ok v => eqFinish (recSet foo "OI" v)
    else if se = Val.str "EQ" then
      if delvIsNone then eqFinish (recSet foo "OI" (Val.str "0"))
      else
        match delvOi with
        | none => .error .attributeError
        | some m =>
          match getE foo "Symbol" with
          | .error e => .error e
          | .ok s =>
            match getE foo "Series" with
            | .error e => .error e
            | .ok se2 =>
              eqFinish (recSet foo "OI" (flattenOi (delvGet m (s, se2))))
    else .ok none

def manipEqGo (delvIsNone : Bool) (delvOi : Option DelvMap) :
    List Rec → List Rec → Except PyErr (List Rec)
  | [], out => .ok out
  | foo :: rest, out =>
    match eqStep delvIsNone delvOi foo with
    | .error e => .error e
    | .ok none => manipEqGo delvIsNone delvOi rest out
    | .ok (some r) => manipEqGo delvIsNone delvOi rest (out ++ [r])

/-- `_manipulate_nse_equities`: builds the delivery index once when
`input_delv` is truthy, then loops over the primary records. -/
def manipulate_nse_equities (inputBhav : List Rec)
    (inputDelv : Option (List Rec)) (out : List Rec) :
    Except PyErr (List Rec) :=
  match inputDelv with
  | none => manipEqGo true none inputBhav out
  | some l =>
    if l.isEmpty then manipEqGo false none inputBhav out
    else
      match buildDelvOi l with
      | .error e => .error e
      | .ok m => manipEqGo false (some m) inputBhav out

/-! ### `_manipulate_nse_futures` -/

/-- The 16-element `future_suffix` list. -/
def sufList : List String :=
  ["-I", "-II", "-III", "-IV", "-V", "-VI", "-VII", "-VIII",
   "-IX", "-X", "-XI", "-XII", "-XIII", "-XIV", "-XV", "-XVI"]

/-- `future_suffix[pos]`: `IndexError` beyond the 16 entries. -/
def suffixAt (n : Nat) : Except PyErr String :=
  match sufList.get? n with
  | some s => .ok s
  | none => .error .indexError

/-- `record['Symbol'] + future_suffix[pos]`: string concatenation;
`TypeError` when the left operand is not a string. -/
def valAdd (v : Val) (suf : String) : Except PyErr Val :=
  match v with
  | Val.str s => .ok (Val.str (s ++ suf))
  | _ => .error .typeError

/-- The record-building part of the futures loop body, after the suffix
for this record has been selected: suffix the symbol, overwrite `Volume`
with `Contracts`, reparse the date (failures propagate), overwrite
`Close` with `Settlement_Price`, and zero-fill the OHLC. -/
def buildFutRecord (foo : Rec) (cur : Val) (suf : String) :
    Except PyErr Rec :=
  match valAdd cur suf with
  | .error e => .error e
  | .ok newSym =>
    match getE (recSet foo "Symbol" newSym) "Contracts" with
    | .error e => .error e
    | .ok cv =>
      match pyDateParse (getOpt
          (recSet (recSet foo "Symbol" newSym) "Volume" cv) "Date") with
      | .error e => .error e
      | .ok iso =>
        match getE (recSet (recSet (recSet foo "Symbol" newSym)
            "Volume" cv) "Date" (Val.str iso)) "Settlement_Price" with
        | .error e => .error e
        | .ok sv =>
          sanitize_ohlc (recSet (recSet (recSet (recSet foo "Symbol"
            newSym) "Volume" cv) "Date" (Val.str iso)) "Close" sv)

/-- The `_manipulate_nse_futures` loop with its two state variables:
`prev` is `previous_symbol` (initially Python `None`, i.e. `pynone`) and
`pos` the running suffix counter.  Records whose `Instrument` is not one
of `FUTIDX`, `FUTIVX`, `FUTSTK` are skipped and leave the state
untouched.  The suffix is selected (and can raise `IndexError`) before
the date is parsed. -/
def manipFut : List Rec → Val → Nat → Except PyErr (List Rec)
  | [], _, _ => .ok []
  | foo :: rest, prev, pos =>
    match getE foo "Instrument" with
    | .error e => .error e
    | .ok iv =>
      if iv = Val.str "FUTIDX" ∨ iv = Val.str "FUTIVX" ∨
          iv = Val.str "FUTSTK" then
        match getE foo "Symbol" with
        | .error e => .error e
        | .ok cur =>
          match suffixAt (if cur = prev then pos + 1 else 0) with
          | .error e => .error e
          | .ok suf =>
            match buildFutRecord foo cur suf with
            | .error e => .error e
            | .ok record =>
              match manipFut rest cur (if cur = prev then pos + 1 else 0) with
              | .error e => .error e
              | .ok outRest => .ok (record :: outRest)
      else manipFut rest prev pos

/-- `_manipulate_nse_futures`. -/
def manipulate_nse_futures (inputBhav : List Rec) (out : List Rec) :
    Except PyErr (List Rec) :=
  match manipFut inputBhav Val.pynone 0 with
  | .error e => .error e
  | .ok l => .ok (out ++ l)

/-! ### The per-category normalization pipelines, as composed by
`_output_nse_indices` / `_output_nse_equities` / `_output_nse_futures`
(manipulation followed by `_finalize_output`; the surrounding file I/O
is outside the core). -/

def indicesPipeline (input : List Rec) : Except PyErr (List Rec) :=
  match manipulate_nse_indices input [] with
  | .error e => .error e
  | .ok out => finalize_output out

def equitiesPipeline (inputBhav : List Rec) (inputDelv : Option (List Rec)) :
    Except PyErr (List Rec) :=
  match manipulate_nse_equities inputBhav inputDelv [] with
  | .error e => .error e
  | .ok out => finalize_output out

def futuresPipeline (input : List Rec) : Except PyErr (List Rec) :=
  match manipulate_nse_futures input [] with
  | .error e => .error e
  | .ok out => finalize_output out

/-! ### Specification companion for the futures suffix logic -/

/-- The `(Symbol, suffix position)` sequence of the records that the
futures loop emits, extracted from the input by the same filter and the
same one-element-lookback position recurrence as `manipFut`.  (When a
record passing the instrument filter lacks a `Symbol` key,
`manipFut` raises; the sequence is cut short there.) -/
def futSpec : List Rec → Val → Nat → List (Val × Nat)
  | [], _, _ => []
  | foo :: rest, prev, pos =>
    match getOpt foo "Instrument" with
    | none => []
    | some iv =>
      if iv = Val.str "FUTIDX" ∨ iv = Val.str "FUTIVX" ∨
          iv = Val.str "FUTSTK" then
        match getOpt foo "Symbol" with
        | none => []
        | some cur =>
          (cur, if cur = prev then pos + 1 else 0) ::
            futSpec rest cur (if cur = prev then pos + 1 else 0)
      else futSpec rest prev pos

/-- The lookback invariant of a `(Symbol, position)` sequence: each
position is one more than its predecessor's when the symbol repeats,
and zero when it changes. -/
def chainOk : Val → Nat → List (Val × Nat) → Prop
  | _, _, [] => True
  | prev, pos, (c, p) :: rest =>
    p = (if c = prev then pos + 1 else 0) ∧ chainOk c p rest

/-! ### Concrete raw records used by the claim witnesses -/

/-- A raw indices bhavcopy record (the 13 fieldnames of
`_get_nse_indices_fieldnames`, in file order). -/
def indRec (sym date o h l c chg chgp vol turn pe pb dy : String) : Rec :=
  [("Symbol", Val.str sym), ("Date", Val.str date), ("Open", Val.str o),
   ("High", Val.str h), ("Low", Val.str l), ("Close", Val.str c),
   ("Change", Val.str chg), ("Change_pct", Val.str chgp),
   ("Volume", Val.str vol), ("Turnover", Val.str turn),
   ("PE", Val.str pe), ("PB", Val.str pb), ("Div_yield", Val.str dy)]

/-- A raw equities bhavcopy record (the 13 fieldnames of
`_get_nse_equities_fieldnames`, in file order). -/
def eqPrimRec (sym ser o h l c ltp pc vol turn date tt isin : String) : Rec :=
  [("Symbol", Val.str sym), ("Series", Val.str ser), ("Open", Val.str o),
   ("High", Val.str h), ("Low", Val.str l), ("Close", Val.str c),
   ("LTP", Val.str ltp), ("Prev_Close", Val.str pc),
   ("Volume", Val.str vol), ("Turnover", Val.str turn),
   ("Date", Val.str date), ("Total_Trades", Val.str tt),
   ("ISIN", Val.str isin)]

/-- A raw equities delivery record (the 7 fieldnames of
`_get_nse_equities_fieldnames`, in file order). -/
def eqDelvRec (ty sl sym ser vol oi oip : String) : Rec :=
  [("Type", Val.str ty), ("Sl_No", Val.str sl), ("Symbol", Val.str sym),
   ("Series", Val.str ser), ("Volume", Val.str vol), ("OI", Val.str oi),
   ("OI_%", Val.str oip)]

/-- A raw futures bhavcopy record (the 15 fieldnames of
`_get_nse_futures_fieldnames`, in file order). -/
def futRec (inst sym o h l c settle contracts oi date : String) : Rec :=
  [("Instrument", Val.str inst), ("Symbol", Val.str sym),
   ("Expiry_Date", Val.str "e"), ("Strike_Price", Val.str "0"),
   ("Option_Type", Val.str "XX"), ("Open", Val.str o),
   ("High", Val.str h), ("Low", Val.str l), ("Close", Val.str c),
   ("Settlement_Price", Val.str settle), ("Contracts", Val.str contracts),
   ("Turnover_lakh", Val.str "t"), ("OI", Val.str oi),
   ("OI_Change", Val.str "ch"), ("Date", Val.str date)]

/-- The indices bhavcopy fieldnames, for feeding `readRow`. -/
def indFieldnames : List String :=
  ["Symbol", "Date", "Open", "High", "Low", "Close", "Change", "Change_pct",
   "Volume", "Turnover", "PE", "PB", "Div_yield"]

/-- A concrete futures input: three consecutive `ABC` contracts followed
by one `XYZ` contract. -/
def c7in : List Rec :=
  [futRec "FUTSTK" "ABC" "1" "2" "0.5" "1.5" "1.6" "7" "11" "28-May-2014",
   futRec "FUTSTK" "ABC" "1" "2" "0.5" "1.5" "1.7" "8" "12" "28-May-2014",
   futRec "FUTSTK" "ABC" "1" "2" "0.5" "1.5" "1.8" "9" "13" "28-May-2014",
   futRec "FUTSTK" "XYZ" "1" "2" "0.5" "1.5" "1.9" "6" "14" "28-May-2014"]

/-- The canonical (pre-`_finalize_output`) shape of a record emitted by
the futures loop for an input built with `futRec`. -/
def futOutRec (sym o h l settle contracts oi : String) : Rec :=
  [("Instrument", Val.str "FUTSTK"), ("Symbol", Val.str sym),
   ("Expiry_Date", Val.str "e"), ("Strike_Price", Val.str "0"),
   ("Option_Type", Val.str "XX"), ("Open", Val.str o),
   ("High", Val.str h), ("Low", Val.str l), ("Close", Val.str settle),
   ("Settlement_Price", Val.str settle), ("Contracts", Val.str contracts),
   ("Turnover_lakh", Val.str "t"), ("OI", Val.str oi),
   ("OI_Change", Val.str "ch"), ("Date", Val.str "2014-05-28"),
   ("Volume", Val.str contracts)]

/-- The output of the futures loop on `c7in`. -/
def c7out : List Rec :=
  [futOutRec "ABC-I" "1" "2" "0.5" "1.6" "7" "11",
   futOutRec "ABC-II" "1" "2" "0.5" "1.7" "8" "12",
   futOutRec "ABC-III" "1" "2" "0.5" "1.8" "9" "13",
   futOutRec "XYZ-I" "1" "2" "0.5" "1.9" "6" "14"]

/-! ### Helper lemmas on records -/

theorem getOpt_recSet_self (r : Rec) (k : String) (v : Val) :
    getOpt (recSet r k v) k = some v := by
  induction r with
  | nil => simp [recSet, getOpt]
  | cons e rest ih =>
    by_cases h : e.1 = k
    · simp [recSet, h, getOpt]
    · simp [recSet, h, getOpt, ih]

theorem getOpt_recSet_ne (r : Rec) (k k' : String) (v : Val) (h : k' ≠ k) :
    getOpt (recSet r k v) k' = getOpt r k' := by
  induction r with
  | nil =>
    have : ¬ (k = k') := fun hh => h hh.symm
    simp [recSet, getOpt, this]
  | cons e rest ih =>
    by_cases he : e.1 = k
    · simp only [recSet, he, if_pos rfl]
      have : ¬ (k = k') := fun hh => h hh.symm
      simp [getOpt, this, he]
    · simp only [recSet, if_neg he]
      by_cases he' : e.1 = k'
      · simp [getOpt, he']
      · simp [getOpt, he', ih]

theorem getE_eq_ok (r : Rec) (k : String) (v : Val)
    (h : getOpt r k = some v) : getE r k = .ok v := by
  simp [getE, h]

theorem getOpt_mapVal (r : Rec) (k : String) (f : Val → Val) :
    getOpt (r.map (fun e => (e.1, f e.2))) k = (getOpt r k).map f := by
  induction r with
  | nil => simp [getOpt]
  | cons e rest ih =>
    by_cases h : e.1 = k
    · simp [getOpt, h]
    · simp [getOpt, h, ih]

theorem getE_error (r : Rec) (k : String) (e : PyErr)
    (h : getE r k = .error e) : e = .keyError := by
  unfold getE at h
  split at h
  · cases h
  · cases h; rfl

theorem pyDateParse_error (v : Option Val) (e : PyErr)
    (h : pyDateParse v = .error e) : e = .typeError := by
  unfold pyDateParse at h
  split at h
  · split at h
    · cases h
    · cases h; rfl
  · cases h; rfl

/-! ### Helper lemmas on the sanitizers -/

theorem sanitize_ohlc_close_zero (r : Rec)
    (hC : getOpt r "Close" = some (Val.str "0")) :
    sanitize_ohlc r = .ok r := by
  simp [sanitize_ohlc, getE_eq_ok r "Close" _ hC]

theorem sanitize_ohlc_fill (r : Rec) (c : Val)
    (hC : getOpt r "Close" = some c) (hc : c ≠ Val.str "0")
    (hO : getOpt r "Open" = some (Val.str "0"))
    (hH : getOpt r "High" = some (Val.str "0"))
    (hL : getOpt r "Low" = some (Val.str "0")) :
    sanitize_ohlc r =
      .ok (recSet (recSet (recSet r "Open" c) "High" c) "Low" c) := by
  simp [sanitize_ohlc, getE_eq_ok r "Close" c hC,
    getE_eq_ok r "Open" _ hO, getE_eq_ok r "High" _ hH,
    getE_eq_ok r "Low" _ hL, hc]

theorem sanitize_ohlc_other (r r' : Rec) (k : String)
    (h : sanitize_ohlc r = .ok r')
    (hO : k ≠ "Open") (hH : k ≠ "High") (hL : k ≠ "Low") :
    getOpt r' k = getOpt r k := by
  unfold sanitize_ohlc at h
  split at h
  · cases h
  · split at h
    · cases h; rfl
    · split at h
      · cases h
      · split at h
        · split at h
          · cases h
          · split at h
            · split at h
              · cases h
              · split at h
                · cases h
                  rw [getOpt_recSet_ne _ _ _ _ hL,
                    getOpt_recSet_ne _ _ _ _ hH,
                    getOpt_recSet_ne _ _ _ _ hO]
                · cases h; rfl
            · cases h; rfl
        · cases h; rfl

theorem sanitize_ohlc_error (r : Rec) (e : PyErr)
    (h : sanitize_ohlc r = .error e) : e = .keyError := by
  unfold sanitize_ohlc at h
  split at h
  · cases h; exact getE_error r "Close" e (by assumption)
  · split at h
    · cases h
    · split at h
      · cases h; exact getE_error r "Open" e (by assumption)
      · split at h
        · split at h
          · cases h; exact getE_error r "High" e (by assumption)
          · split at h
            · split at h
              · cases h; exact getE_error r "Low" e (by assumption)
              · split at h
                · cases h
                · cases h
            · cases h
        · cases h

/-! ### Helper lemmas on the output-formatting stage -/

theorem stripOne_ok (r r' : Rec) (k : String) (h : stripOne r k = .ok r') :
    ∃ s, getOpt r k = some (Val.str s) ∧
      r' = recSet r k (Val.str (strTrim s)) := by
  unfold stripOne at h
  split at h
  · cases h
  · next heq =>
    cases h
    unfold getE at heq
    split at heq
    · next v hv =>
      cases heq
      exact ⟨_, hv, rfl⟩
    · cases heq
  · cases h

theorem stripOne_pynone (r : Rec) (k : String)
    (h : getOpt r k = some Val.pynone) :
    stripOne r k = .error .attributeError := by
  simp [stripOne, getE_eq_ok r k _ h]

theorem floatOne_ok (r r' : Rec) (k : String) (h : floatOne r k = .ok r') :
    ∃ s q, getOpt r k = some (Val.str s) ∧ parseFloat s = some q ∧
      r' = recSet r k (Val.str (formatF2 q)) := by
  unfold floatOne at h
  split at h
  · cases h
  · next heq =>
    split at h
    · next hq =>
      cases h
      unfold getE at heq
      split at heq
      · next v hv =>
        cases heq
        exact ⟨_, _, hv, hq, rfl⟩
      · cases heq
    · cases h
  · cases h

theorem stripAll_other (ks : List String) (r r' : Rec) (k : String)
    (h : stripAll r ks = .ok r') (hk : k ∉ ks) :
    getOpt r' k = getOpt r k := by
  induction ks generalizing r with
  | nil => unfold stripAll at h; cases h; rfl
  | cons k0 ks ih =>
    have hne : k ≠ k0 := fun hkk => hk (hkk ▸ List.mem_cons_self k0 ks)
    have hmem : k ∉ ks := fun hm => hk (List.mem_cons_of_mem _ hm)
    unfold stripAll at h
    cases h1 : stripOne r k0 with
    | error e => rw [h1] at h; cases h
    | ok r1 =>
      rw [h1] at h
      obtain ⟨s, hs, hr1⟩ := stripOne_ok r r1 k0 h1
      rw [ih r1 h hmem, hr1, getOpt_recSet_ne _ _ _ _ hne]

theorem floatAll_other (ks : List String) (r r' : Rec) (k : String)
    (h : floatAll r ks = .ok r') (hk : k ∉ ks) :
    getOpt r' k = getOpt r k := by
  induction ks generalizing r with
  | nil => unfold floatAll at h; cases h; rfl
  | cons k0 ks ih =>
    have hne : k ≠ k0 := fun hkk => hk (hkk ▸ List.mem_cons_self k0 ks)
    have hmem : k ∉ ks := fun hm => hk (List.mem_cons_of_mem _ hm)
    unfold floatAll at h
    cases h1 : floatOne r k0 with
    | error e => rw [h1] at h; cases h
    | ok r1 =>
      rw [h1] at h
      obtain ⟨s, q, hs, hq, hr1⟩ := floatOne_ok r r1 k0 h1
      rw [ih r1 h hmem, hr1, getOpt_recSet_ne _ _ _ _ hne]

theorem formatRecord_other (r r' : Rec) (k : String)
    (h : formatRecord r = .ok r')
    (h1 : k ∉ stripKeysList) (h2 : k ∉ formatFloatsList) :
    getOpt r' k = getOpt r k := by
  unfold formatRecord at h
  split at h
  · cases h
  · next r1 hr1 =>
    rw [floatAll_other _ _ _ _ h h2, stripAll_other _ _ _ _ hr1 h1]

theorem stripAll_pynone (ks : List String) (r : Rec) (k : String)
    (hk : k ∈ ks) (hv : getOpt r k = some Val.pynone) :
    ∃ e, stripAll r ks = .error e := by
  induction ks generalizing r with
  | nil => cases hk
  | cons k0 ks ih =>
    by_cases hkk : k = k0
    · subst hkk
      exact ⟨.attributeError, by unfold stripAll; rw [stripOne_pynone r k hv]⟩
    · rcases List.mem_cons.mp hk with h | h
      · exact absurd h hkk
      · cases h1 : stripOne r k0 with
        | error e => exact ⟨e, by unfold stripAll; rw [h1]⟩
        | ok r1 =>
          obtain ⟨s, hs, hr1⟩ := stripOne_ok r r1 k0 h1
          obtain ⟨e, he⟩ :=
            ih r1 h (by rw [hr1, getOpt_recSet_ne _ _ _ _ hkk]; exact hv)
          exact ⟨e, by unfold stripAll; rw [h1]; exact he⟩

theorem formatRecord_pynone_oi (r : Rec)
    (h : getOpt r "OI" = some Val.pynone) :
    ∀ out, formatRecord r ≠ .ok out := by
  intro out hok
  obtain ⟨e, he⟩ := stripAll_pynone stripKeysList r "OI" (by decide) h
  unfold formatRecord at hok
  rw [he] at hok
  cases hok

theorem format_output_data_mem (l out : List Rec)
    (h : format_output_data l = .ok out) :
    ∀ r' ∈ out, ∃ r ∈ l, formatRecord r = .ok r' := by
  induction l generalizing out with
  | nil =>
    unfold format_output_data at h
    cases h
    intro r' hr'
    cases hr'
  | cons a l ih =>
    unfold format_output_data at h
    split at h
    · cases h
    · next r1 h1 =>
      split at h
      · cases h
      · next rest1 h2 =>
        cases h
        intro r' hr'
        rcases List.mem_cons.mp hr' with h | h
        · exact ⟨a, List.mem_cons_self a l, h ▸ h1⟩
        · obtain ⟨r, hr, hfr⟩ := ih rest1 h2 r' h
          exact ⟨r, List.mem_cons_of_mem _ hr, hfr⟩

theorem getOpt_popUnnecessary (r : Rec) (k : String)
    (hk : strMem k unnecessaryKeys = true) :
    getOpt (popUnnecessary r) k = none := by
  induction r with
  | nil => rfl
  | cons e rest ih =>
    unfold popUnnecessary at ih ⊢
    rw [List.filter_cons]
    by_cases h : strMem e.1 unnecessaryKeys = true
    · simp only [h, Bool.not_true]
      simpa using ih
    · have hb : strMem e.1 unnecessaryKeys = false := by
        cases hx : strMem e.1 unnecessaryKeys
        · rfl
        · exact absurd hx h
      have hne : e.1 ≠ k := fun hh => h (hh ▸ hk)
      simp only [hb, Bool.not_false, if_pos]
      simpa [getOpt, hne] using ih

/-! ### Claim C1 -/

/-- C1, as stated, is false: a single record with an unparseable `Close`
(`"abc"`) does not get dropped with the batch continuing — the
`ValueError` raised inside `_format_output_data` is uncaught, so the
whole indices batch fails and the well-formed first record is not
emitted either. -/
theorem c1_counterexample :
    indicesPipeline
      [indRec "aaa" "01-01-2014" "1" "2" "0.5" "1.5" "x" "x" "v" "10"
        "p" "b" "d",
       indRec "bbb" "01-01-2014" "1" "2" "0.5" "abc" "x" "x" "v" "10"
        "p" "b" "d"] = .error .valueError := by decide

/-- C1 (amended): a record whose output formatting fails — as happens
when an `Open`, `High`, `Low` or `Close` value is not parseable as a
number — makes `_format_output_data` fail for the entire batch: no
record of the batch is emitted. -/
theorem c1_amended (r : Rec) (e : PyErr) (h : formatRecord r = .error e)
    (l1 l2 : List Rec) :
    ∃ e2, format_output_data (l1 ++ r :: l2) = .error e2 := by
  induction l1 with
  | nil =>
    refine ⟨e, ?_⟩
    rw [List.nil_append]
    unfold format_output_data
    rw [h]
  | cons a l1 ih =>
    rw [List.cons_append]
    cases ha : formatRecord a with
    | error e2 => exact ⟨e2, by unfold format_output_data; rw [ha]⟩
    | ok r1 =>
      obtain ⟨e2, he2⟩ := ih
      exact ⟨e2, by unfold format_output_data; rw [ha, he2]⟩

/-- C1 witness: a concrete two-record batch in which the second record
has `Open = "abc"`. -/
theorem c1_amended_witness :
    ∃ e2, format_output_data
      ([[("Symbol", Val.str "G"), ("Open", Val.str "1"),
         ("High", Val.str "1"), ("Low", Val.str "1"),
         ("Close", Val.str "1"), ("Volume", Val.str "1"),
         ("OI", Val.str "0"), ("Date", Val.str "2014-01-01")]] ++
        [("Symbol", Val.str "B"), ("Open", Val.str "abc"),
         ("High", Val.str "1"), ("Low", Val.str "1"),
         ("Close", Val.str "1"), ("Volume", Val.str "1"),
         ("OI", Val.str "0"), ("Date", Val.str "2014-01-01")] :: []) =
      .error e2 :=
  c1_amended _ .valueError (by decide) _ _

/-! ### Claim C2 -/

/-- C2, as stated, is false in its second half: with the delivery file
available but containing no record for `(Symbol="FOO", Series="EQ")`,
the output `OI` is not `"0"` — the lookup leaves Python `None` in the
record and the whole batch later dies in `_format_output_data` with an
`AttributeError` from `None.strip()`. -/
theorem c2_counterexample :
    equitiesPipeline
      [eqPrimRec "FOO" "EQ" "1" "2" "0.5" "1.5" "x" "x" "100" "x"
        "28-May-2014" "x" "x"]
      (some [eqDelvRec "20" "1" "BAR" "EQ" "50" "500" "x"]) =
      .error .attributeError := by decide

theorem sanitize_ohlc_total (r : Rec) (ov hv lv cv : Val)
    (hO : getOpt r "Open" = some ov) (hH : getOpt r "High" = some hv)
    (hL : getOpt r "Low" = some lv) (hC : getOpt r "Close" = some cv) :
    ∃ r2, sanitize_ohlc r = .ok r2 := by
  simp only [sanitize_ohlc, getE_eq_ok r "Close" cv hC,
    getE_eq_ok r "Open" ov hO, getE_eq_ok r "High" hv hH,
    getE_eq_ok r "Low" lv hL]
  by_cases h0 : cv = Val.str "0"
  · rw [if_pos h0]
    exact ⟨r, rfl⟩
  · rw [if_neg h0]
    by_cases h1 : ov = Val.str "0"
    · rw [if_pos h1]
      by_cases h2 : hv = Val.str "0"
      · rw [if_pos h2]
        by_cases h3 : lv = Val.str "0"
        · rw [if_pos h3]
          exact ⟨_, rfl⟩
        · rw [if_neg h3]
          exact ⟨r, rfl⟩
      · rw [if_neg h2]
        exact ⟨r, rfl⟩
    · rw [if_neg h1]
      exact ⟨r, rfl⟩

theorem eqFinish_emits (record : Rec) (ds : String) (y mo d : Nat)
    (ov hv lv cv : Val)
    (hd : getOpt record "Date" = some (Val.str ds))
    (hp : parseDateStr ds = some (y, mo, d))
    (hO : getOpt record "Open" = some ov)
    (hH : getOpt record "High" = some hv)
    (hL : getOpt record "Low" = some lv)
    (hC : getOpt record "Close" = some cv) :
    ∃ r2, eqFinish record = .ok (some r2) ∧
      getOpt r2 "OI" = getOpt record "OI" := by
  have h1 : pyDateParse (some (Val.str ds)) = .ok (isoDate y mo d) := by
    simp [pyDateParse, hp]
  obtain ⟨r2, hs⟩ := sanitize_ohlc_total
    (recSet record "Date" (Val.str (isoDate y mo d))) ov hv lv cv
    (by rw [getOpt_recSet_ne _ _ _ _ (by decide)]; exact hO)
    (by rw [getOpt_recSet_ne _ _ _ _ (by decide)]; exact hH)
    (by rw [getOpt_recSet_ne _ _ _ _ (by decide)]; exact hL)
    (by rw [getOpt_recSet_ne _ _ _ _ (by decide)]; exact hC)
  refine ⟨r2, ?_, ?_⟩
  · simp [eqFinish, hd, h1, hs]
  · rw [sanitize_ohlc_other _ _ "OI" hs (by decide) (by decide)
      (by decide), getOpt_recSet_ne _ _ _ _ (by decide)]

/-- C2 (amended): with the delivery data available, a primary `EQ`
record carrying its usual fields (a `Date` that parses and its four
price fields present, with arbitrary values) is emitted with `OI` taken
from the delivery index when its `(Symbol, Series)` pair is found there;
a pair that is absent yields `OI = None` (not `"0"`), and any record
carrying `OI = None` makes the output-formatting stage fail, aborting
the batch.  (`OI = "0"` is produced only on the `input_delv is None`
path, i.e. when the delivery file is missing altogether.) -/
theorem c2_amended :
    (∀ (m : DelvMap) (prim : Rec) (sym oiv ov hv lv cv : Val)
        (ds : String) (y mo d : Nat),
      getOpt prim "Series" = some (Val.str "EQ") →
      getOpt prim "Symbol" = some sym →
      delvGet m (sym, Val.str "EQ") = some (some oiv) →
      getOpt prim "Date" = some (Val.str ds) →
      parseDateStr ds = some (y, mo, d) →
      getOpt prim "Open" = some ov →
      getOpt prim "High" = some hv →
      getOpt prim "Low" = some lv →
      getOpt prim "Close" = some cv →
      ∃ r, eqStep false (some m) prim = .ok (some r) ∧
        getOpt r "OI" = some oiv) ∧
    (∀ (m : DelvMap) (prim : Rec) (sym ov hv lv cv : Val)
        (ds : String) (y mo d : Nat),
      getOpt prim "Series" = some (Val.str "EQ") →
      getOpt prim "Symbol" = some sym →
      delvGet m (sym, Val.str "EQ") = none →
      getOpt prim "Date" = some (Val.str ds) →
      parseDateStr ds = some (y, mo, d) →
      getOpt prim "Open" = some ov →
      getOpt prim "High" = some hv →
      getOpt prim "Low" = some lv →
      getOpt prim "Close" = some cv →
      ∃ r, eqStep false (some m) prim = .ok (some r) ∧
        getOpt r "OI" = some Val.pynone) ∧
    (∀ (r : Rec), getOpt r "OI" = some Val.pynone →
      ∀ out, formatRecord r ≠ .ok out) := by
  refine ⟨?_, ?_, formatRecord_pynone_oi⟩
  · intro m prim sym oiv ov hv lv cv ds y mo d hser hsym hget hd hp hO hH
      hL hC
    have hstep : eqStep false (some m) prim =
        eqFinish (recSet prim "OI"
          (flattenOi (delvGet m (sym, Val.str "EQ")))) := by
      simp [eqStep, getE_eq_ok prim "Series" _ hser,
        getE_eq_ok prim "Symbol" _ hsym]
    rw [hstep, hget]
    obtain ⟨r2, he, hoi⟩ := eqFinish_emits (recSet prim "OI" oiv) ds y mo d
      ov hv lv cv
      (by rw [getOpt_recSet_ne _ _ _ _ (by decide)]; exact hd) hp
      (by rw [getOpt_recSet_ne _ _ _ _ (by decide)]; exact hO)
      (by rw [getOpt_recSet_ne _ _ _ _ (by decide)]; exact hH)
      (by rw [getOpt_recSet_ne _ _ _ _ (by decide)]; exact hL)
      (by rw [getOpt_recSet_ne _ _ _ _ (by decide)]; exact hC)
    refine ⟨r2, he, ?_⟩
    rw [hoi, getOpt_recSet_self]
  · intro m prim sym ov hv lv cv ds y mo d hser hsym hget hd hp hO hH
      hL hC
    have hstep : eqStep false (some m) prim =
        eqFinish (recSet prim "OI"
          (flattenOi (delvGet m (sym, Val.str "EQ")))) := by
      simp [eqStep, getE_eq_ok prim "Series" _ hser,
        getE_eq_ok prim "Symbol" _ hsym]
    rw [hstep, hget]
    obtain ⟨r2, he, hoi⟩ := eqFinish_emits (recSet prim "OI" Val.pynone)
      ds y mo d ov hv lv cv
      (by rw [getOpt_recSet_ne _ _ _ _ (by decide)]; exact hd) hp
      (by rw [getOpt_recSet_ne _ _ _ _ (by decide)]; exact hO)
      (by rw [getOpt_recSet_ne _ _ _ _ (by decide)]; exact hH)
      (by rw [getOpt_recSet_ne _ _ _ _ (by decide)]; exact hL)
      (by rw [getOpt_recSet_ne _ _ _ _ (by decide)]; exact hC)
    refine ⟨r2, he, ?_⟩
    rw [hoi, getOpt_recSet_self]

/-- C2 witness: a typical `EQ` record with nonzero prices
(`Close = "1.5"`); the delivery index holds `OI = "500"` for
`("FOO", "EQ")`, and the emitted record carries exactly that value. -/
theorem c2_amended_witness :
    ∃ r, eqStep false
        (some [((Val.str "FOO", Val.str "EQ"), some (Val.str "500"))])
        (eqPrimRec "FOO" "EQ" "1" "2" "0.5" "1.5" "x" "x" "100" "x"
          "28-May-2014" "x" "x") = .ok (some r) ∧
      getOpt r "OI" = some (Val.str "500") :=
  c2_amended.1 [((Val.str "FOO", Val.str "EQ"), some (Val.str "500"))]
    (eqPrimRec "FOO" "EQ" "1" "2" "0.5" "1.5" "x" "x" "100" "x"
      "28-May-2014" "x" "x")
    (Val.str "FOO") (Val.str "500") (Val.str "1") (Val.str "2")
    (Val.str "0.5") (Val.str "1.5") "28-May-2014" 2014 5 28 (by decide)
    (by decide) (by decide) (by decide) (by decide) (by decide)
    (by decide) (by decide) (by decide)

/-! ### Claim C3 -/

/-- C3, as stated, is false for the Futures category (and likewise for
Equities): `_manipulate_nse_futures` never calls the placeholder
sanitizers, so a futures record with `Open = "-"` keeps the dash through
manipulation (first conjunct), and the full normalization then aborts
with the `ValueError` from `float("-")` instead of emitting `"0"`
(second conjunct). -/
theorem c3_counterexample :
    manipulate_nse_futures
        [futRec "FUTSTK" "ABC" "-" "2" "0.5" "1.5" "1.6" "7" "11"
          "28-May-2014"] [] =
      .ok [[("Instrument", Val.str "FUTSTK"), ("Symbol", Val.str "ABC-I"),
        ("Expiry_Date", Val.str "e"), ("Strike_Price", Val.str "0"),
        ("Option_Type", Val.str "XX"), ("Open", Val.str "-"),
        ("High", Val.str "2"), ("Low", Val.str "0.5"),
        ("Close", Val.str "1.6"), ("Settlement_Price", Val.str "1.6"),
        ("Contracts", Val.str "7"), ("Turnover_lakh", Val.str "t"),
        ("OI", Val.str "11"), ("OI_Change", Val.str "ch"),
        ("Date", Val.str "2014-05-28"), ("Volume", Val.str "7")]] ∧
    futuresPipeline
        [futRec "FUTSTK" "ABC" "-" "2" "0.5" "1.5" "1.6" "7" "11"
          "28-May-2014"] = .error .valueError := by
  constructor
  · decide
  · decide

/-- C3 (amended): the placeholder coercion exists only in the Indices
normalizer, where `_convert_dash_to_zero` followed by
`_convert_blank_to_zero` replaces exactly the fields equal to `"-"` or
`""` with `"0"` and leaves every other value unchanged; Equities and
Futures records never receive this replacement. -/
theorem c3_amended (r : Rec) (k : String) (v : Val)
    (h : getOpt r k = some v) :
    getOpt (convert_blank_to_zero (convert_dash_to_zero r)) k =
      some (if v = Val.str "-" ∨ v = Val.str "" then Val.str "0" else v) := by
  unfold convert_blank_to_zero convert_dash_to_zero
  rw [getOpt_mapVal _ _ blankToZeroVal, getOpt_mapVal _ _ dashToZeroVal, h]
  by_cases h1 : v = Val.str "-"
  · subst h1
    simp [dashToZeroVal, blankToZeroVal]
  · by_cases h2 : v = Val.str ""
    · subst h2
      simp [dashToZeroVal, blankToZeroVal]
    · simp [dashToZeroVal, blankToZeroVal, h1, h2]

/-- C3 witness: a dash-valued field of an indices record is coerced
to `"0"` by the two sanitizers. -/
theorem c3_amended_witness :
    getOpt (convert_blank_to_zero (convert_dash_to_zero
        [("Open", Val.str "-"), ("Close", Val.str "5")])) "Open" =
      some (Val.str "0") := by
  have := c3_amended [("Open", Val.str "-"), ("Close", Val.str "5")]
    "Open" (Val.str "-") (by decide)
  simpa using this

/-! ### Claim C4 -/

/-- C4, as stated, is false for the Equities category (and likewise for
Futures): their date reparse has no exception handler, so an `EQ` record
whose `Date` does not parse aborts the whole batch — the well-formed
first record is lost too — instead of being silently skipped. -/
theorem c4_counterexample :
    equitiesPipeline
      [eqPrimRec "FOO" "EQ" "1" "2" "0.5" "1.5" "x" "x" "100" "x"
        "28-May-2014" "x" "x",
       eqPrimRec "BAZ" "EQ" "1" "2" "0.5" "1.5" "x" "x" "100" "x"
        "garbage" "x" "x"] none = .error .typeError := by decide

/-- C4 (amended): only the Indices normalizer skips a record on a date
parse failure: when the `Date` value is a string the parser rejects, the
`TypeError` is caught, exactly that record is dropped, and the rest of
the batch is processed unchanged.  Equities and Futures propagate the
failure and abort their batch. -/
theorem c4_amended (bad : Rec) (sy tv ds : String)
    (hsym : getOpt bad "Symbol" = some (Val.str sy))
    (hturn : getOpt bad "Turnover" = some (Val.str tv))
    (hdate : getOpt bad "Date" = some (Val.str ds))
    (hfail : parseDateStr ds = none) :
    ∀ (rest out : List Rec),
      manipulate_nse_indices (bad :: rest) out =
        manipulate_nse_indices rest out := by
  have hsym0 : getOpt (recSet bad "OI" (Val.str "0")) "Symbol" =
      some (Val.str sy) := by
    rw [getOpt_recSet_ne _ _ _ _ (by decide)]; exact hsym
  have hturn1 : getOpt (recSet (recSet bad "OI" (Val.str "0")) "Symbol"
      (Val.str (upperNoSpaces sy))) "Turnover" = some (Val.str tv) := by
    rw [getOpt_recSet_ne _ _ _ _ (by decide),
      getOpt_recSet_ne _ _ _ _ (by decide)]
    exact hturn
  have hpart : ∃ record, indicesSymbolPart (recSet bad "OI" (Val.str "0")) =
      .ok record ∧ getOpt record "Date" = some (Val.str ds) := by
    cases hpf : parseFloat tv with
    | none =>
      refine ⟨recSet (recSet bad "OI" (Val.str "0")) "Symbol"
        (Val.str (upperNoSpaces sy)), ?_, ?_⟩
      · simp [indicesSymbolPart, hasKey, hsym0,
          getE_eq_ok _ "Symbol" _ hsym0, getE_eq_ok _ "Turnover" _ hturn1,
          hpf]
      · rw [getOpt_recSet_ne _ _ _ _ (by decide),
          getOpt_recSet_ne _ _ _ _ (by decide)]
        exact hdate
    | some q =>
      refine ⟨recSet (recSet (recSet bad "OI" (Val.str "0")) "Symbol"
        (Val.str (upperNoSpaces sy))) "Volume"
        (Val.str (formatF0 (decMul q 100))), ?_, ?_⟩
      · simp [indicesSymbolPart, hasKey, hsym0,
          getE_eq_ok _ "Symbol" _ hsym0, getE_eq_ok _ "Turnover" _ hturn1,
          hpf]
      · rw [getOpt_recSet_ne _ _ _ _ (by decide),
          getOpt_recSet_ne _ _ _ _ (by decide),
          getOpt_recSet_ne _ _ _ _ (by decide)]
        exact hdate
  obtain ⟨record, hrec, hrecd⟩ := hpart
  have hd2 : pyDateParse (getOpt record "Date") = .error .typeError := by
    rw [hrecd]
    simp [pyDateParse, hfail]
  have hstep : indicesStep bad = .ok none := by
    simp [indicesStep, hrec, hd2]
  intro rest out
  conv_lhs => rw [manipulate_nse_indices]
  rw [hstep]

/-- C4 witness: a concrete indices record with `Date = "garbage"` is
skipped and the rest of the batch (here empty) proceeds. -/
theorem c4_amended_witness :
    manipulate_nse_indices
      [indRec "sym" "garbage" "1" "2" "3" "4" "x" "x" "v" "10" "p" "b" "d"]
      [] = manipulate_nse_indices [] [] :=
  c4_amended _ "sym" "10" "garbage" (by decide) (by decide) (by decide)
    (by decide) [] []

/-! ### Claim C5 -/

/-- C5, as stated, is false: trimming happens in `_format_output_data`,
i.e. after placeholder coercion and the zero-fill, so a field holding
`" - "` is NOT treated like `"-"`: the batch with `Open = " - "` aborts
with a `ValueError` (the dash survives coercion and then fails
`float`), while the identical batch with `Open = "-"` is normalized. -/
theorem c5_counterexample :
    indicesPipeline
        [indRec "ccc" "01-01-2014" " - " "-" "-" "5" "x" "x" "v" "10"
          "p" "b" "d"] = .error .valueError ∧
    indicesPipeline
        [indRec "ccc" "01-01-2014" "-" "-" "-" "5" "x" "x" "v" "10"
          "p" "b" "d"] =
      .ok [[("Symbol", Val.str "CCC"), ("Date", Val.str "2014-01-01"),
        ("Open", Val.str "5.00"), ("High", Val.str "5.00"),
        ("Low", Val.str "5.00"), ("Close", Val.str "5.00"),
        ("Volume", Val.str "1000"), ("OI", Val.str "0")]] := by
  constructor
  · decide
  · decide

/-- C5 (amended): whitespace trimming happens only inside
`_format_output_data`, after placeholder coercion and the zero-fill and
immediately before the decimal re-formatting: a value that is not
literally `"-"` or `""` (such as `" - "`) passes through the coercion
unchanged (first conjunct), and the strip loop of the formatting stage
is what trims it (second conjunct). -/
theorem c5_amended (r : Rec) (k : String) (s : String)
    (hv : getOpt r k = some (Val.str s)) (h1 : s ≠ "-") (h2 : s ≠ "") :
    getOpt (convert_blank_to_zero (convert_dash_to_zero r)) k =
      some (Val.str s) ∧
    stripOne r k = .ok (recSet r k (Val.str (strTrim s))) := by
  constructor
  · unfold convert_blank_to_zero convert_dash_to_zero
    rw [getOpt_mapVal _ _ blankToZeroVal, getOpt_mapVal _ _ dashToZeroVal,
      hv]
    simp [dashToZeroVal, blankToZeroVal, h1, h2]
  · simp [stripOne, getE_eq_ok r k _ hv]

/-- C5 witness: the field value `" - "` survives the placeholder
coercion and is trimmed only by the formatting stage. -/
theorem c5_amended_witness :
    getOpt (convert_blank_to_zero (convert_dash_to_zero
        [("Open", Val.str " - ")])) "Open" = some (Val.str " - ") ∧
    stripOne [("Open", Val.str " - ")] "Open" =
      .ok (recSet [("Open", Val.str " - ")] "Open"
        (Val.str (strTrim " - "))) :=
  c5_amended [("Open", Val.str " - ")] "Open" " - " (by decide)
    (by decide) (by decide)

/-! ### Claim C6 -/

/-- C6, as stated, is false: a short indices row (8 of 13 columns) gets
the reader's `restval` sentinel `"Skip"` in its `Volume` and `Turnover`
fields; `Turnover` fails to parse, so `Volume` is never overwritten, and
the emitted canonical record carries the sentinel marker value `"Skip"`
in its `Volume` output field. -/
theorem c6_counterexample :
    indicesPipeline
        [readRow indFieldnames
          ["abc", "01-01-2014", "1", "2", "0.5", "1.5", "x", "y"]] =
      .ok [[("Symbol", Val.str "ABC"), ("Date", Val.str "2014-01-01"),
        ("Open", Val.str "1.00"), ("High", Val.str "2.00"),
        ("Low", Val.str "0.50"), ("Close", Val.str "1.50"),
        ("Volume", Val.str "Skip"), ("OI", Val.str "0")]] ∧
    getOpt [("Symbol", Val.str "ABC"), ("Date", Val.str "2014-01-01"),
        ("Open", Val.str "1.00"), ("High", Val.str "2.00"),
        ("Low", Val.str "0.50"), ("Close", Val.str "1.50"),
        ("Volume", Val.str "Skip"), ("OI", Val.str "0")] "Volume" =
      some (Val.str "Skip") := by
  constructor
  · decide
  · decide

/-- C6 (amended): the overflow KEY never reaches output — every record
emitted by `_finalize_output` lacks the `"Skip"` key, because
`_pop_unnecessary_keys` removes it and the formatting stage touches only
the seven output fields.  (Sentinel marker VALUES can still reach
output, as the counterexample shows.) -/
theorem c6_amended (data out : List Rec) (h : finalize_output data = .ok out) :
    ∀ r ∈ out, getOpt r "Skip" = none := by
  intro r hr
  unfold finalize_output at h
  split at h
  · cases h
    next hlen =>
    cases data with
    | nil => cases hr
    | cons a l => simp at hlen
  · obtain ⟨r0, hr0, hfr⟩ := format_output_data_mem _ _ h r hr
    obtain ⟨d, hd, hdr⟩ := List.mem_map.mp hr0
    rw [formatRecord_other _ _ _ hfr (by decide) (by decide), ← hdr]
    exact getOpt_popUnnecessary d "Skip" (by decide)

/-- C6 witness: a concrete finalized batch whose record contains no
`"Skip"` key. -/
theorem c6_amended_witness :
    getOpt [("Symbol", Val.str "A"), ("Open", Val.str "1.00"),
      ("High", Val.str "1.00"), ("Low", Val.str "1.00"),
      ("Close", Val.str "1.00"), ("Volume", Val.str "1"),
      ("OI", Val.str "0")] "Skip" = none :=
  c6_amended
    [[("Symbol", Val.str "A"), ("Open", Val.str "1"),
      ("High", Val.str "1"), ("Low", Val.str "1"),
      ("Close", Val.str "1"), ("Volume", Val.str "1"),
      ("OI", Val.str "0"), ("Skip", Val.strlist [])]]
    [[("Symbol", Val.str "A"), ("Open", Val.str "1.00"),
      ("High", Val.str "1.00"), ("Low", Val.str "1.00"),
      ("Close", Val.str "1.00"), ("Volume", Val.str "1"),
      ("OI", Val.str "0")]]
    (by decide) _ (by decide)

/-! ### Claim C8 -/

/-- C8: the zero-fill rule of `_sanitize_ohlc` — when `Close` is not
`"0"` and `Open`, `High`, `Low` are all `"0"`, the record comes out with
`Open = High = Low = Close` (and `Close` itself untouched); moreover the
rule never modifies `Close` on any record it processes. -/
theorem c8_zero_fill :
    (∀ (r : Rec) (c : Val),
      getOpt r "Close" = some c → c ≠ Val.str "0" →
      getOpt r "Open" = some (Val.str "0") →
      getOpt r "High" = some (Val.str "0") →
      getOpt r "Low" = some (Val.str "0") →
      ∃ r', sanitize_ohlc r = .ok r' ∧
        getOpt r' "Open" = some c ∧ getOpt r' "High" = some c ∧
        getOpt r' "Low" = some c ∧ getOpt r' "Close" = some c) ∧
    (∀ (r r' : Rec), sanitize_ohlc r = .ok r' →
      getOpt r' "Close" = getOpt r "Close") := by
  constructor
  · intro r c hC hc hO hH hL
    refine ⟨_, sanitize_ohlc_fill r c hC hc hO hH hL, ?_, ?_, ?_, ?_⟩
    · rw [getOpt_recSet_ne _ _ _ _ (by decide),
        getOpt_recSet_ne _ _ _ _ (by decide), getOpt_recSet_self]
    · rw [getOpt_recSet_ne _ _ _ _ (by decide), getOpt_recSet_self]
    · rw [getOpt_recSet_self]
    · rw [getOpt_recSet_ne _ _ _ _ (by decide),
        getOpt_recSet_ne _ _ _ _ (by decide),
        getOpt_recSet_ne _ _ _ _ (by decide)]
      exact hC
  · intro r r' h
    exact sanitize_ohlc_other r r' "Close" h (by decide) (by decide)
      (by decide)

/-- C8 witness: the zero-fill at a concrete record with `Close = "1.5"`
and zero `Open`, `High`, `Low`. -/
theorem c8_zero_fill_witness :
    ∃ r', sanitize_ohlc [("Open", Val.str "0"), ("High", Val.str "0"),
        ("Low", Val.str "0"), ("Close", Val.str "1.5")] = .ok r' ∧
      getOpt r' "Open" = some (Val.str "1.5") ∧
      getOpt r' "High" = some (Val.str "1.5") ∧
      getOpt r' "Low" = some (Val.str "1.5") ∧
      getOpt r' "Close" = some (Val.str "1.5") :=
  c8_zero_fill.1 _ (Val.str "1.5") (by decide) (by decide) (by decide)
    (by decide) (by decide)

/-! ### Claim C9 -/

/-- C9: the indices scenario — row `Symbol="nifty 50"`,
`Turnover="1234.5"`, `Date="01-01-2014"`, `Open=High=Low=Close="-"`
normalizes to `Symbol="NIFTY50"`, `Volume="123450"`,
`Open=High=Low=Close="0.00"`, `OI="0"`, `Date="2014-01-01"`. -/
theorem c9_indices_scenario :
    indicesPipeline
        [indRec "nifty 50" "01-01-2014" "-" "-" "-" "-" "x" "x" "v"
          "1234.5" "p" "b" "d"] =
      .ok [[("Symbol", Val.str "NIFTY50"), ("Date", Val.str "2014-01-01"),
        ("Open", Val.str "0.00"), ("High", Val.str "0.00"),
        ("Low", Val.str "0.00"), ("Close", Val.str "0.00"),
        ("Volume", Val.str "123450"), ("OI", Val.str "0")]] := by decide

/-! ### Helper lemmas on the futures loop -/

theorem getE_ok (r : Rec) (k : String) (v : Val) (h : getE r k = .ok v) :
    getOpt r k = some v := by
  unfold getE at h
  split at h
  · cases h; assumption
  · cases h

theorem valAdd_ok (v : Val) (suf : String) (w : Val)
    (h : valAdd v suf = .ok w) :
    ∃ s, v = Val.str s ∧ w = Val.str (s ++ suf) := by
  cases v with
  | str s => cases h; exact ⟨s, rfl, rfl⟩
  | pynone => cases h
  | strlist l => cases h

theorem valAdd_error (v : Val) (suf : String) (e : PyErr)
    (h : valAdd v suf = .error e) : e = .typeError := by
  cases v with
  | str s => cases h
  | pynone => cases h; rfl
  | strlist l => cases h; rfl

theorem suffixAt_ok (n : Nat) (s : String) (h : suffixAt n = .ok s) :
    n < 16 ∧ s = sufList.getD n "" := by
  unfold suffixAt at h
  cases hg : sufList.get? n with
  | none => rw [hg] at h; cases h
  | some s0 =>
    rw [hg] at h
    cases h
    constructor
    · by_contra hn
      push_neg at hn
      have hlen : sufList.length ≤ n := by
        have : sufList.length = 16 := by decide
        omega
      rw [List.get?_eq_none.mpr hlen] at hg
      cases hg
    · rw [List.getD_eq_get?, hg]
      rfl

theorem suffixAt_lt (n : Nat) (h : n < 16) :
    suffixAt n = .ok (sufList.getD n "") := by
  interval_cases n <;> rfl

theorem buildFutRecord_symbol (foo : Rec) (cur : Val) (suf : String)
    (r : Rec) (h : buildFutRecord foo cur suf = .ok r) :
    ∃ s, cur = Val.str s ∧
      getOpt r "Symbol" = some (Val.str (s ++ suf)) := by
  unfold buildFutRecord at h
  cases hva : valAdd cur suf with
  | error e => simp only [hva] at h; cases h
  | ok newSym =>
    simp only [hva] at h
    obtain ⟨s, hcur, hsym⟩ := valAdd_ok _ _ _ hva
    refine ⟨s, hcur, ?_⟩
    cases hc : getE (recSet foo "Symbol" newSym) "Contracts" with
    | error e => simp only [hc] at h; cases h
    | ok cv =>
      simp only [hc] at h
      cases hdp : pyDateParse (getOpt
          (recSet (recSet foo "Symbol" newSym) "Volume" cv) "Date") with
      | error e => simp only [hdp] at h; cases h
      | ok iso =>
        simp only [hdp] at h
        cases hsp : getE (recSet (recSet (recSet foo "Symbol" newSym)
            "Volume" cv) "Date" (Val.str iso)) "Settlement_Price" with
        | error e => simp only [hsp] at h; cases h
        | ok sv =>
          simp only [hsp] at h
          rw [sanitize_ohlc_other _ _ "Symbol" h (by decide) (by decide)
            (by decide)]
          rw [getOpt_recSet_ne _ _ _ _ (by decide),
            getOpt_recSet_ne _ _ _ _ (by decide),
            getOpt_recSet_ne _ _ _ _ (by decide),
            getOpt_recSet_self, hsym]

theorem buildFutRecord_error (foo : Rec) (cur : Val) (suf : String)
    (e : PyErr) (h : buildFutRecord foo cur suf = .error e) :
    e ≠ .indexError := by
  unfold buildFutRecord at h
  cases hva : valAdd cur suf with
  | error e0 =>
    simp only [hva] at h
    cases h
    rw [valAdd_error _ _ _ hva]
    intro hc
    cases hc
  | ok newSym =>
    simp only [hva] at h
    cases hc : getE (recSet foo "Symbol" newSym) "Contracts" with
    | error e0 =>
      simp only [hc] at h
      cases h
      rw [getE_error _ _ _ hc]
      intro hx
      cases hx
    | ok cv =>
      simp only [hc] at h
      cases hdp : pyDateParse (getOpt
          (recSet (recSet foo "Symbol" newSym) "Volume" cv) "Date") with
      | error e0 =>
        simp only [hdp] at h
        cases h
        rw [pyDateParse_error _ _ hdp]
        intro hx
        cases hx
      | ok iso =>
        simp only [hdp] at h
        cases hsp : getE (recSet (recSet (recSet foo "Symbol" newSym)
            "Volume" cv) "Date" (Val.str iso)) "Settlement_Price" with
        | error e0 =>
          simp only [hsp] at h
          cases h
          rw [getE_error _ _ _ hsp]
          intro hx
          cases hx
        | ok sv =>
          simp only [hsp] at h
          rw [sanitize_ohlc_error _ _ h]
          intro hx
          cases hx

theorem futSpec_chainOk (l : List Rec) (prev : Val) (pos : Nat) :
    chainOk prev pos (futSpec l prev pos) := by
  induction l generalizing prev pos with
  | nil => trivial
  | cons foo rest ih =>
    unfold futSpec
    cases hI : getOpt foo "Instrument" with
    | none => trivial
    | some iv =>
      simp only [hI]
      by_cases hf : iv = Val.str "FUTIDX" ∨ iv = Val.str "FUTIVX" ∨
          iv = Val.str "FUTSTK"
      · rw [if_pos hf]
        cases hS : getOpt foo "Symbol" with
        | none => trivial
        | some cur =>
          simp only [hS]
          exact ⟨rfl, ih _ _⟩
      · rw [if_neg hf]
        exact ih _ _

theorem chainOk_head (xs : List (Val × Nat)) (prev : Val) (pos : Nat)
    (c : Val) (p : Nat) (h : chainOk prev pos xs)
    (h0 : xs.get? 0 = some (c, p)) :
    p = if c = prev then pos + 1 else 0 := by
  cases xs with
  | nil => cases h0
  | cons a rest =>
    rw [List.get?_cons_zero] at h0
    cases h0
    exact h.1

theorem chainOk_step (xs : List (Val × Nat)) (prev : Val) (pos : Nat)
    (h : chainOk prev pos xs) (i : Nat) (c : Val) (p : Nat) (c' : Val)
    (p' : Nat) (h1 : xs.get? i = some (c, p))
    (h2 : xs.get? (i + 1) = some (c', p')) :
    p' = if c' = c then p + 1 else 0 := by
  induction xs generalizing prev pos i with
  | nil => cases h1
  | cons a rest ih =>
    cases i with
    | zero =>
      rw [List.get?_cons_zero] at h1
      cases h1
      rw [List.get?_cons_succ] at h2
      exact chainOk_head rest c p c' p' h.2 h2
    | succ i =>
      rw [List.get?_cons_succ] at h1
      rw [List.get?_cons_succ] at h2
      cases a with
      | mk ac ap => exact ih ac ap h.2 i h1 h2

theorem manipFut_spec (l : List Rec) (prev : Val) (pos : Nat)
    (out : List Rec) (h : manipFut l prev pos = .ok out) :
    out.length = (futSpec l prev pos).length ∧
    ∀ i c p, (futSpec l prev pos).get? i = some (c, p) →
      p < 16 ∧ ∃ s r, c = Val.str s ∧ out.get? i = some r ∧
        getOpt r "Symbol" = some (Val.str (s ++ sufList.getD p "")) := by
  induction l generalizing prev pos out with
  | nil =>
    unfold manipFut at h
    cases h
    refine ⟨rfl, ?_⟩
    intro i c p hi
    unfold futSpec at hi
    cases i with
    | zero => cases hi
    | succ j => cases hi
  | cons foo rest ih =>
    unfold manipFut at h
    unfold futSpec
    cases hI : getE foo "Instrument" with
    | error e => simp only [hI] at h; cases h
    | ok iv =>
      simp only [hI] at h
      rw [getE_ok _ _ _ hI]
      by_cases hf : iv = Val.str "FUTIDX" ∨ iv = Val.str "FUTIVX" ∨
          iv = Val.str "FUTSTK"
      · rw [if_pos hf] at h
        simp only [if_pos hf]
        cases hS : getE foo "Symbol" with
        | error e => simp only [hS] at h; cases h
        | ok cur =>
          simp only [hS] at h
          rw [getE_ok _ _ _ hS]
          cases hsuf : suffixAt (if cur = prev then pos + 1 else 0) with
          | error e => simp only [hsuf] at h; cases h
          | ok suf =>
            simp only [hsuf] at h
            obtain ⟨hlt, hsufval⟩ := suffixAt_ok _ _ hsuf
            cases hbr : buildFutRecord foo cur suf with
            | error e => simp only [hbr] at h; cases h
            | ok record =>
              simp only [hbr] at h
              obtain ⟨s, hcur, hrecsym⟩ := buildFutRecord_symbol _ _ _ _ hbr
              cases hmf : manipFut rest cur (if cur = prev then pos + 1
                  else 0) with
              | error e => simp only [hmf] at h; cases h
              | ok outRest =>
                simp only [hmf] at h
                cases h
                obtain ⟨ihlen, ihidx⟩ := ih _ _ _ hmf
                refine ⟨by simp [ihlen], ?_⟩
                intro i c p hi
                cases i with
                | zero =>
                  rw [List.get?_cons_zero] at hi
                  cases hi
                  refine ⟨hlt, s, record, hcur, List.get?_cons_zero, ?_⟩
                  rw [hrecsym, hsufval]
                | succ j =>
                  rw [List.get?_cons_succ] at hi
                  rw [List.get?_cons_succ]
                  exact ihidx j c p hi
      · rw [if_neg hf] at h
        simp only [if_neg hf]
        exact ih _ _ _ h

theorem manipFut_no_indexError (l : List Rec) (prev : Val) (pos : Nat)
    (hb : ∀ cp ∈ futSpec l prev pos, cp.2 < 16) :
    manipFut l prev pos ≠ .error .indexError := by
  induction l generalizing prev pos with
  | nil =>
    unfold manipFut
    intro hc
    cases hc
  | cons foo rest ih =>
    intro hc
    unfold manipFut at hc
    unfold futSpec at hb
    cases hI : getE foo "Instrument" with
    | error e =>
      simp only [hI] at hc
      have he := getE_error _ _ _ hI
      cases hc
      cases he
    | ok iv =>
      simp only [hI] at hc
      rw [getE_ok _ _ _ hI] at hb
      by_cases hf : iv = Val.str "FUTIDX" ∨ iv = Val.str "FUTIVX" ∨
          iv = Val.str "FUTSTK"
      · rw [if_pos hf] at hc
        simp only [if_pos hf] at hb
        cases hS : getE foo "Symbol" with
        | error e =>
          simp only [hS] at hc
          have he := getE_error _ _ _ hS
          cases hc
          cases he
        | ok cur =>
          simp only [hS] at hc
          rw [getE_ok _ _ _ hS] at hb
          have hlt : (if cur = prev then pos + 1 else 0) < 16 := by
            have := hb (cur, if cur = prev then pos + 1 else 0)
              (List.mem_cons_self _ _)
            exact this
          rw [suffixAt_lt _ hlt] at hc
          simp only [] at hc
          cases hbr : buildFutRecord foo cur
              (sufList.getD (if cur = prev then pos + 1 else 0) "") with
          | error e =>
            simp only [hbr] at hc
            have := buildFutRecord_error _ _ _ _ hbr
            cases hc
            exact this rfl
          | ok record =>
            simp only [hbr] at hc
            cases hmf : manipFut rest cur (if cur = prev then pos + 1
                else 0) with
            | error e =>
              simp only [hmf] at hc
              cases hc
              refine ih _ _ ?_ hmf
              intro cp hcp
              exact hb cp (List.mem_cons_of_mem _ hcp)
            | ok outRest =>
              simp only [hmf] at hc
              cases hc
      · rw [if_neg hf] at hc
        simp only [if_neg hf] at hb
        exact ih _ _ hb hc

/-! ### Claim C7 -/

/-- C7: futures suffix disambiguation.  For a successful run, writing
`sp = futSpec input pynone 0` for the `(input Symbol, suffix position)`
sequence of the emitted records (extracted from the input by the same
filter and one-element-lookback recurrence as the loop itself):
(1) the i-th emitted record's output Symbol is its input Symbol followed
by the suffix at its position (`sufList.getD 0 "" = "-I"`, etc.);
(2) consecutive emitted records obey the single-pass lookback step:
position `p+1` when the Symbol repeats, reset to `0` (suffix `-I`) when
it differs from the immediately preceding emitted record;
(3) the first emitted record has position `0`;
(4) hence three consecutive emitted records with the same Symbol whose
run starts fresh carry positions `0, 1, 2`, i.e. suffixes
`-I, -II, -III`, in input order. -/
theorem c7_futures_suffixing (input out : List Rec)
    (h : manipulate_nse_futures input [] = .ok out) :
    (out.length = (futSpec input Val.pynone 0).length ∧
      ∀ i c p, (futSpec input Val.pynone 0).get? i = some (c, p) →
        ∃ s r, c = Val.str s ∧ out.get? i = some r ∧
          getOpt r "Symbol" = some (Val.str (s ++ sufList.getD p ""))) ∧
    (∀ i c p c' p',
      (futSpec input Val.pynone 0).get? i = some (c, p) →
      (futSpec input Val.pynone 0).get? (i + 1) = some (c', p') →
      p' = if c' = c then p + 1 else 0) ∧
    (∀ s p, (futSpec input Val.pynone 0).get? 0 = some (Val.str s, p) →
      p = 0) ∧
    (∀ i c p1 p2,
      (futSpec input Val.pynone 0).get? i = some (c, 0) →
      (futSpec input Val.pynone 0).get? (i + 1) = some (c, p1) →
      (futSpec input Val.pynone 0).get? (i + 2) = some (c, p2) →
      p1 = 1 ∧ p2 = 2) := by
  have hm : manipFut input Val.pynone 0 = .ok out := by
    unfold manipulate_nse_futures at h
    cases hmf : manipFut input Val.pynone 0 with
    | error e => rw [hmf] at h; cases h
    | ok l =>
      rw [hmf] at h
      cases h
      rw [List.nil_append]
  have hchain := futSpec_chainOk input Val.pynone 0
  obtain ⟨hlen, hidx⟩ := manipFut_spec input Val.pynone 0 out hm
  have hstep : ∀ i c p c' p',
      (futSpec input Val.pynone 0).get? i = some (c, p) →
      (futSpec input Val.pynone 0).get? (i + 1) = some (c', p') →
      p' = if c' = c then p + 1 else 0 :=
    fun i c p c' p' h1 h2 =>
      chainOk_step _ Val.pynone 0 hchain i c p c' p' h1 h2
  refine ⟨⟨hlen, ?_⟩, hstep, ?_, ?_⟩
  · intro i c p hi
    obtain ⟨_, s, r, hc, hr, hsym⟩ := hidx i c p hi
    exact ⟨s, r, hc, hr, hsym⟩
  · intro s p h0
    have := chainOk_head _ Val.pynone 0 (Val.str s) p hchain h0
    simpa using this
  · intro i c p1 p2 h0 h1 h2
    have e1 : p1 = if c = c then 0 + 1 else 0 := hstep i c 0 c p1 h0 h1
    have e2 : p2 = if c = c then p1 + 1 else 0 := hstep (i + 1) c p1 c p2 h1 h2
    simp at e1
    simp [e1] at e2
    exact ⟨e1, e2⟩

/-- C7 witness: on the concrete input `c7in` (three `ABC` futures rows
then one `XYZ` row) the second emitted record is suffixed `-II`. -/
theorem c7_futures_suffixing_witness :
    ∃ s r, (Val.str "ABC" : Val) = Val.str s ∧ c7out.get? 1 = some r ∧
      getOpt r "Symbol" = some (Val.str (s ++ sufList.getD 1 "")) :=
  (c7_futures_suffixing c7in c7out (by decide)).1.2 1 (Val.str "ABC") 1
    (by decide)

/-! ### Claim C10 -/

/-- C10, as stated, is false in its "normalization is total" half: here
is a futures input whose only run has length 1 (its position sequence is
`[("ABC", 0)]`, far below 16), yet normalization is not total — the
record's unparseable `Date` aborts the batch with a `TypeError`.  The
suffix index is indeed in bounds: the error is not an `IndexError`. -/
theorem c10_counterexample :
    futSpec [futRec "FUTSTK" "ABC" "1" "2" "0.5" "1.5" "1.6" "7" "11"
        "garbage"] Val.pynone 0 = [(Val.str "ABC", 0)] ∧
    manipulate_nse_futures [futRec "FUTSTK" "ABC" "1" "2" "0.5" "1.5"
        "1.6" "7" "11" "garbage"] [] = .error .typeError := by
  constructor
  · decide
  · decide

/-- C10 (amended): suffix selection indexes the fixed 16-element list
without a bounds guard.  When every emitted run stays within 16 (every
position of `futSpec` is below 16) the lookup never raises — the loop
can still fail, but never with an `IndexError`; and an input whose 17th
consecutive same-Symbol record is reached fails with exactly an
`IndexError`, emitting nothing. -/
theorem c10_amended :
    (∀ (l : List Rec) (prev : Val) (pos : Nat),
      (∀ cp ∈ futSpec l prev pos, cp.2 < 16) →
      manipFut l prev pos ≠ .error .indexError) ∧
    manipulate_nse_futures
        (List.replicate 17 (futRec "FUTSTK" "ABC" "1" "2" "0.5" "1.5"
          "1.6" "7" "11" "28-May-2014")) [] = .error .indexError :=
  ⟨manipFut_no_indexError, by decide⟩

/-- C10 witness: a 16-record same-Symbol input satisfies the run bound,
so the loop cannot return an `IndexError` on it. -/
theorem c10_amended_witness :
    manipFut (List.replicate 16 (futRec "FUTSTK" "ABC" "1" "2" "0.5"
        "1.5" "1.6" "7" "11" "28-May-2014")) Val.pynone 0 ≠
      .error .indexError :=
  c10_amended.1 _ Val.pynone 0 (by decide)
